import Mathlib

/-!
Shallow embedding of `src/CheckSyntaxPlugin.ts` from rsbuild-plugin-check-syntax.

The plugin hooks the bundler's `afterEmit` stage, enumerates emitted assets,
filters them to HTML/JavaScript files not excluded by `excludeOutput`, parses
each one (HTML files via extracted script fragments) under the resolved
ECMAScript version, and prints the accumulated diagnostics.

External collaborators (the acorn parser, the diagnostic builder
`generateError`, the HTML script extractor, the file system, and
`browserslistToESVersion`) are modelled as an `Env` of oracle functions;
promise rejection of a file read is `Env.readFile = none`.  Helper modules of
this repository that are imported by the plugin but whose sources are not
available (`utils.js`, `generateError.js`) are modelled from the spec where a
claim needs their behaviour, and are marked as such.

The asynchronous run is embedded sequentially; to state temporal and
"never parsed" claims, the run additionally produces a trace of events
(parse attempts, file-read attempts, per-file check resolutions, and the
start of reporting).
-/

set_option autoImplicit false

/-- A finished user-facing diagnostic (`ECMASyntaxError` of `types.js`, not
under the sources; only the fields the claims need are modelled: the file the
diagnostic points into and its message). -/
structure ECMASyntaxError where
  filepath : String
  message : String
deriving DecidableEq

/-- A raw acorn parse failure (`AcornParseError` of `types.js`): message and
character offset. -/
structure AcornParseError where
  message : String
  pos : Nat
deriving DecidableEq

/-- One exclusion rule, abstracted as a predicate on (already resolved
absolute) file paths; the concrete repository uses regular expressions, whose
test function is exactly such a predicate. -/
def ExcludeRule : Type := String → Bool

/-- `CheckSyntaxExclude` of `types.js`: a single rule or an array of rules. -/
inductive CheckSyntaxExclude where
  | single : ExcludeRule → CheckSyntaxExclude
  | many : List ExcludeRule → CheckSyntaxExclude

/-- Modelled from the spec: `checkIsExclude` of `utils.js` (not under the
sources), the ExclusionMatcher.  Rules absent excludes nothing; a subject is
excluded iff it matches any rule (logical OR over the rule list). -/
def checkIsExclude (subject : String) (rules : Option CheckSyntaxExclude) : Bool :=
  match rules with
  | none => false
  | some (CheckSyntaxExclude.single r) => r subject
  | some (CheckSyntaxExclude.many rs) => rs.any (fun r => r subject)

/-- Suffix test on strings, character-wise (the anchored-at-end regex test). -/
def strEndsWith (s t : String) : Bool := t.data.isSuffixOf s.data

/-- Test of `HTML_REGEX = /\.html$/` on a path: the path ends in `.html`. -/
def htmlTest (s : String) : Bool := strEndsWith s (".html")

/-- Test of `JS_REGEX = /\.(?:js|mjs|cjs|jsx)$/` on a path. -/
def jsTest (s : String) : Bool :=
  strEndsWith s (".js") || strEndsWith s (".mjs") ||
    strEndsWith s (".cjs") || strEndsWith s (".jsx")

/-- Models `name.split('?')[0]`: the part of the name before the first `?`. -/
def stripQuery (name : String) : String :=
  String.mk (name.data.takeWhile (fun c => c != '?'))

/-- Models node's `resolve(outputPath, resourcePath)` for the fragment-free
paths at hand: an absolute second argument wins, otherwise it is joined under
the first. -/
def resolvePath (base rel : String) : String :=
  if "/".data.isPrefixOf rel.data then rel else base ++ "/" ++ rel

/-- Models the JavaScript `a || b` idiom on an optional number: `undefined`
and the falsy number `0` fall through to `b`. -/
def jsOrNat (a : Option Nat) (b : Nat) : Nat :=
  match a with
  | none => b
  | some v => if v = 0 then b else v

/-- Models the JavaScript `a || b` idiom on an optional string: `undefined`
and the falsy empty string fall through to `b`. -/
def jsOrStr (a : Option String) (b : String) : String :=
  match a with
  | none => b
  | some v => if v = "" then b else v

/-- The external collaborators the plugin calls into, as oracle functions.
`acornParse code v = none` models a successful `parse(code, { ecmaVersion: v })`
and `some err` models the exception it raises; `readFile fp = none` models a
rejection of `fs.promises.readFile(fp)`; `generateError` is the diagnostic
builder of `generateError.js` returning `none` for a suppressed diagnostic;
`generateHtmlScripts` yields the script fragments extracted from an HTML file;
`browserslistToESVersion` derives an ECMAScript version from target strings. -/
structure Env where
  readFile : String → Option String
  generateHtmlScripts : String → List String
  acornParse : String → Nat → Option AcornParseError
  generateError : AcornParseError → String → String → Option CheckSyntaxExclude →
    String → Option ECMASyntaxError
  browserslistToESVersion : List String → Nat

/-- Modelled from the spec: the DiagnosticBuilder contract of
`generateError.js` (not under the sources): it frames the parse failure as a
diagnostic for the file and returns `null`, suppressing the diagnostic, when
the (filepath, diagnostic) pair is excluded under `exclude`. -/
def specGenerateError (err : AcornParseError) (_code : String) (filepath : String)
    (exclude : Option CheckSyntaxExclude) (_rootPath : String) : Option ECMASyntaxError :=
  if checkIsExclude filepath exclude then none
  else some { filepath := filepath, message := err.message }

/-- The mutable instance state of `CheckSyntaxPlugin`, as assigned by its
constructor (with `errors` initialised to the empty list). -/
structure CheckSyntaxPlugin where
  errors : List ECMASyntaxError
  ecmaVersion : Nat
  targets : List String
  rootPath : String
  exclude : Option CheckSyntaxExclude
  excludeOutput : Option CheckSyntaxExclude

/-- The constructor's options record: `CheckSyntaxOptions` with `targets`
required and `rootPath` added. -/
structure CheckSyntaxOptions where
  targets : List String
  exclude : Option CheckSyntaxExclude
  excludeOutput : Option CheckSyntaxExclude
  rootPath : String
  ecmaVersion : Option Nat

/-- The constructor of `CheckSyntaxPlugin`: copies the options and resolves
`this.ecmaVersion = options.ecmaVersion || browserslistToESVersion(this.targets)`. -/
def CheckSyntaxPlugin.construct (env : Env) (options : CheckSyntaxOptions) :
    CheckSyntaxPlugin :=
  { errors := []
    targets := options.targets
    exclude := options.exclude
    excludeOutput := options.excludeOutput
    rootPath := options.rootPath
    ecmaVersion := jsOrNat options.ecmaVersion (env.browserslistToESVersion options.targets) }

/-- One emitted asset descriptor as seen through `compilation.getAssets()`:
its `name` and the truthiness of its `source`. -/
structure Asset where
  name : String
  source : Bool

/-- The part of the `Compilation` object the hook reads:
`compilation.outputOptions.path` (absent when unset) and the asset list. -/
structure Compilation where
  outputPath : Option String
  assets : List Asset

/-- Events of a post-emit run, used to state temporal claims:
a call of `parse` on (filepath, code), the start of
`fs.promises.readFile(filepath)` in the JavaScript branch of `check`,
the resolution of the per-file `check(file)` promise, and the start of
`printErrors(errors, ecmaVersion)`. -/
inductive Event where
  | parseAttempt : String → String → Event
  | readAttempt : String → Event
  | checkResolved : String → Event
  | reportStart : List ECMASyntaxError → Nat → Event
deriving DecidableEq

/-- The file an event concerns, if any. -/
def eventFile : Event → Option String
  | Event.parseAttempt f _ => some f
  | Event.readAttempt f => some f
  | Event.checkResolved f => some f
  | Event.reportStart _ _ => none

/-- `CheckSyntaxPlugin.tryParse`: parses `code` under `this.ecmaVersion`; an
exception from the parser is caught and routed through the diagnostic builder,
whose non-null result is pushed onto `this.errors`.  Returns the updated
instance and the trace of the parse attempt. -/
def CheckSyntaxPlugin.tryParse (env : Env) (p : CheckSyntaxPlugin)
    (filepath code : String) : CheckSyntaxPlugin × List Event :=
  match env.acornParse code p.ecmaVersion with
  | none => (p, [Event.parseAttempt filepath code])
  | some err =>
    match env.generateError err code filepath p.exclude p.rootPath with
    | some e => ({ p with errors := p.errors ++ [e] }, [Event.parseAttempt filepath code])
    | none => (p, [Event.parseAttempt filepath code])

/-- The loop body of the HTML branch of `check`: for each extracted script,
if the file is not excluded under `this.exclude`, parse the script. -/
def checkScripts (env : Env) (filepath : String) :
    CheckSyntaxPlugin → List String → CheckSyntaxPlugin × List Event
  | p, [] => (p, [])
  | p, script :: rest =>
    if !(checkIsExclude filepath p.exclude) then
      let r := p.tryParse env filepath script
      let s := checkScripts env filepath r.1 rest
      (s.1, r.2 ++ s.2)
    else checkScripts env filepath p rest

/-- The HTML branch of `check` (the value of the local `h` below): for an
HTML file, extract its scripts and run the fragment loop; otherwise nothing. -/
def htmlPart (env : Env) (p : CheckSyntaxPlugin) (filepath : String) :
    CheckSyntaxPlugin × List Event :=
  if htmlTest filepath then
    checkScripts env filepath p (env.generateHtmlScripts filepath)
  else (p, [])

/-- `CheckSyntaxPlugin.check(filepath)`: for an HTML file, extract its scripts
and parse each non-excluded one; for a JavaScript file, read its content and
parse it.  The boolean records whether the check's promise resolved (`false`
models the unhandled rejection of `fs.promises.readFile`). -/
def CheckSyntaxPlugin.check (env : Env) (p : CheckSyntaxPlugin) (filepath : String) :
    CheckSyntaxPlugin × Bool × List Event :=
  let h := htmlPart env p filepath
  if jsTest filepath then
    match env.readFile filepath with
    | some jsScript =>
      let r := h.1.tryParse env filepath jsScript
      (r.1, true, h.2 ++ (Event.readAttempt filepath :: r.2))
    | none => (h.1, false, h.2 ++ [Event.readAttempt filepath])
  else (h.1, true, h.2)

/-- The fan-out over `files.map(file => this.check(file))` joined by
`Promise.all`: every dispatched check runs to completion (no cancellation) and
the join resolves iff each check resolved. -/
def runChecks (env : Env) :
    CheckSyntaxPlugin → List String → CheckSyntaxPlugin × Bool × List Event
  | p, [] => (p, true, [])
  | p, file :: rest =>
    let c := p.check env file
    let s := runChecks env c.1 rest
    (s.1, c.2.1 && s.2.1,
      c.2.2 ++ (if c.2.1 then [Event.checkResolved file] else []) ++ s.2.2)

/-- The Collecting stage of the `afterEmit` hook body:
`outputPath = compilation.outputOptions.path || 'dist'`; each asset with a
truthy `source` has the query stripped from its name and is resolved under
the output path; assets excluded by `excludeOutput` are mapped to the empty
string; finally only paths matching `HTML_REGEX` or `JS_REGEX` survive. -/
def collectFiles (p : CheckSyntaxPlugin) (compilation : Compilation) : List String :=
  let outputPath := jsOrStr compilation.outputPath "dist"
  let emittedAssets := (compilation.assets.filter (fun a => a.source)).map (fun a =>
    let resourcePath := stripQuery a.name
    let file := resolvePath outputPath resourcePath
    if !(checkIsExclude file p.excludeOutput) then file else "")
  emittedAssets.filter (fun assets => htmlTest assets || jsTest assets)

/-- Outcome of one post-emit run: the plugin instance afterwards, the argument
of `printErrors` when reporting happened (`none` when the joined promise
rejected and the hook aborted before reporting), and the event trace. -/
structure RunResult where
  plugin : CheckSyntaxPlugin
  reported : Option (List ECMASyntaxError)
  trace : List Event

/-- The body of the `afterEmit` hook registered by `apply`: collect the
candidate files, await all per-file checks, then print
`printErrors(this.errors, this.ecmaVersion)` — unless some check rejected, in
which case the hook's promise rejects before reporting. -/
def CheckSyntaxPlugin.afterEmit (env : Env) (p : CheckSyntaxPlugin)
    (compilation : Compilation) : RunResult :=
  let files := collectFiles p compilation
  let r := runChecks env p files
  if r.2.1 then
    { plugin := r.1
      reported := some r.1.errors
      trace := r.2.2 ++ [Event.reportStart r.1.errors r.1.ecmaVersion] }
  else
    { plugin := r.1, reported := none, trace := r.2.2 }

/-- Modelled from the spec: the grammar versions acorn accepts (`EcmaVersion`
of `types.js`, not under the sources): the numbered editions 3 and 5 to 16
and the year editions 2015 to 2025.  In particular the falsy number 0 is not
an ECMAScript edition. -/
def isEcmaEdition (n : Nat) : Prop :=
  n = 3 ∨ (5 ≤ n ∧ n ≤ 16) ∨ (2015 ≤ n ∧ n ≤ 2025)

instance (n : Nat) : Decidable (isEcmaEdition n) := by
  unfold isEcmaEdition
  infer_instance

/-- The parse exception at most one diagnostic of which `tryParse` appends:
empty on a successful parse, otherwise the diagnostic builder's result. -/
def tryParseNew (env : Env) (p : CheckSyntaxPlugin) (filepath code : String) :
    List ECMASyntaxError :=
  match env.acornParse code p.ecmaVersion with
  | none => []
  | some err => (env.generateError err code filepath p.exclude p.rootPath).toList

/-- `tryParse` only appends to `errors` and records exactly one parse attempt. -/
theorem tryParse_eq (env : Env) (p : CheckSyntaxPlugin) (filepath code : String) :
    p.tryParse env filepath code =
      ({ p with errors := p.errors ++ tryParseNew env p filepath code },
       [Event.parseAttempt filepath code]) := by
  unfold CheckSyntaxPlugin.tryParse tryParseNew
  rcases hpar : env.acornParse code p.ecmaVersion with _ | err
  · simp
  · rcases hgen : env.generateError err code filepath p.exclude p.rootPath with _ | e
    · simp [hgen]
    · simp [hgen]

/-- The diagnostic builder tags each diagnostic with the file it was built
for; `specGenerateError` has this property, as does the real builder by the
DiagnosticBuilder contract. -/
def BuilderTagsFile (env : Env) : Prop :=
  ∀ err code fp ex rp e, env.generateError err code fp ex rp = some e → e.filepath = fp

theorem specGenerateError_tags (env : Env) (h : env.generateError = specGenerateError) :
    BuilderTagsFile env := by
  intro err code fp ex rp e hsome
  rw [h] at hsome
  unfold specGenerateError at hsome
  split at hsome
  · exact absurd hsome (by simp)
  · cases hsome
    rfl

theorem tryParseNew_none (env : Env) (p : CheckSyntaxPlugin) (filepath code : String)
    (h : env.acornParse code p.ecmaVersion = none) :
    tryParseNew env p filepath code = [] := by
  unfold tryParseNew
  rw [h]

theorem tryParseNew_some (env : Env) (p : CheckSyntaxPlugin) (filepath code : String)
    (err : AcornParseError) (h : env.acornParse code p.ecmaVersion = some err) :
    tryParseNew env p filepath code =
      (env.generateError err code filepath p.exclude p.rootPath).toList := by
  unfold tryParseNew
  rw [h]

theorem tryParse_errors_mem (env : Env) (p : CheckSyntaxPlugin) (filepath code : String)
    (H : BuilderTagsFile env) :
    ∀ e ∈ (p.tryParse env filepath code).1.errors, e ∈ p.errors ∨ e.filepath = filepath := by
  intro e he
  rw [tryParse_eq] at he
  simp only [List.mem_append] at he
  rcases he with he | he
  · exact Or.inl he
  · right
    rcases hpar : env.acornParse code p.ecmaVersion with _ | err
    · rw [tryParseNew_none env p filepath code hpar] at he
      simp at he
    · rw [tryParseNew_some env p filepath code err hpar] at he
      simp only [Option.mem_toList, Option.mem_def] at he
      exact H err code filepath p.exclude p.rootPath e he

/-- When the parser raises and the builder suppresses (or the file is
excluded under `specGenerateError`), `tryParse` leaves the instance intact. -/
theorem tryParse_excluded_spec (env : Env) (p : CheckSyntaxPlugin) (filepath code : String)
    (h : env.generateError = specGenerateError)
    (hex : checkIsExclude filepath p.exclude = true) :
    (p.tryParse env filepath code).1 = p := by
  rw [tryParse_eq]
  rcases hpar : env.acornParse code p.ecmaVersion with _ | err
  · rw [tryParseNew_none env p filepath code hpar]
    simp
  · rw [tryParseNew_some env p filepath code err hpar, h]
    unfold specGenerateError
    rw [hex]
    simp

/-- When the file is excluded under `exclude`, the HTML fragment loop parses
nothing and leaves the instance intact. -/
theorem checkScripts_excluded (env : Env) (filepath : String) (l : List String)
    (p : CheckSyntaxPlugin) (hex : checkIsExclude filepath p.exclude = true) :
    checkScripts env filepath p l = (p, []) := by
  induction l with
  | nil => rfl
  | cons a rest ih =>
    unfold checkScripts
    rw [hex]
    simpa using ih

theorem checkScripts_ecma (env : Env) (filepath : String) :
    ∀ (l : List String) (p : CheckSyntaxPlugin),
      (checkScripts env filepath p l).1.ecmaVersion = p.ecmaVersion := by
  intro l
  induction l with
  | nil => intro p; rfl
  | cons a rest ih =>
    intro p
    unfold checkScripts
    split
    · rw [ih ((p.tryParse env filepath a).1), tryParse_eq]
    · exact ih p

theorem checkScripts_events (env : Env) (filepath : String) :
    ∀ (l : List String) (p : CheckSyntaxPlugin),
      ∀ ev ∈ (checkScripts env filepath p l).2, ∃ c, ev = Event.parseAttempt filepath c := by
  intro l
  induction l with
  | nil => intro p ev hev; simp [checkScripts] at hev
  | cons a rest ih =>
    intro p ev hev
    unfold checkScripts at hev
    split at hev
    · rw [tryParse_eq] at hev
      simp only [List.mem_append, List.mem_singleton] at hev
      rcases hev with hev | hev
      · exact ⟨a, hev⟩
      · exact ih _ ev hev
    · exact ih p ev hev

theorem checkScripts_errors (env : Env) (filepath : String) (H : BuilderTagsFile env) :
    ∀ (l : List String) (p : CheckSyntaxPlugin),
      ∀ e ∈ (checkScripts env filepath p l).1.errors, e ∈ p.errors ∨ e.filepath = filepath := by
  intro l
  induction l with
  | nil => intro p e he; exact Or.inl he
  | cons a rest ih =>
    intro p e he
    unfold checkScripts at he
    split at he
    · rcases ih _ e he with h | h
      · exact tryParse_errors_mem env p filepath a H e h
      · exact Or.inr h
    · exact ih p e he

theorem htmlPart_ecma (env : Env) (p : CheckSyntaxPlugin) (filepath : String) :
    (htmlPart env p filepath).1.ecmaVersion = p.ecmaVersion := by
  unfold htmlPart
  split
  · exact checkScripts_ecma env filepath _ p
  · rfl

theorem htmlPart_events (env : Env) (p : CheckSyntaxPlugin) (filepath : String) :
    ∀ ev ∈ (htmlPart env p filepath).2, ∃ c, ev = Event.parseAttempt filepath c := by
  unfold htmlPart
  split
  · exact checkScripts_events env filepath _ p
  · intro ev hev
    simp at hev

theorem htmlPart_errors (env : Env) (p : CheckSyntaxPlugin) (filepath : String)
    (H : BuilderTagsFile env) :
    ∀ e ∈ (htmlPart env p filepath).1.errors, e ∈ p.errors ∨ e.filepath = filepath := by
  unfold htmlPart
  split
  · exact checkScripts_errors env filepath H _ p
  · intro e he
    exact Or.inl he

theorem htmlPart_excluded (env : Env) (p : CheckSyntaxPlugin) (filepath : String)
    (hex : checkIsExclude filepath p.exclude = true) :
    htmlPart env p filepath = (p, []) := by
  unfold htmlPart
  split
  · exact checkScripts_excluded env filepath _ p hex
  · rfl

theorem check_fst_ecma (env : Env) (p : CheckSyntaxPlugin) (filepath : String) :
    (p.check env filepath).1.ecmaVersion = p.ecmaVersion := by
  have hh := htmlPart_ecma env p filepath
  unfold CheckSyntaxPlugin.check
  dsimp only
  rcases hjs : jsTest filepath with _ | _
  · simpa using hh
  · rcases hr : env.readFile filepath with _ | js
    · simpa using hh
    · simpa [tryParse_eq] using hh

theorem check_events (env : Env) (p : CheckSyntaxPlugin) (filepath : String) :
    ∀ ev ∈ (p.check env filepath).2.2, eventFile ev = some filepath := by
  have hH : ∀ ev ∈ (htmlPart env p filepath).2, eventFile ev = some filepath := by
    intro ev hev
    obtain ⟨c, rfl⟩ := htmlPart_events env p filepath ev hev
    rfl
  unfold CheckSyntaxPlugin.check
  dsimp only
  rcases hjs : jsTest filepath with _ | _
  · simpa using hH
  · rcases hr : env.readFile filepath with _ | js
    · intro ev hev
      simp at hev
      rcases hev with hev | hev
      · exact hH ev hev
      · subst hev; rfl
    · intro ev hev
      simp [tryParse_eq] at hev
      rcases hev with hev | hev | hev
      · exact hH ev hev
      · subst hev; rfl
      · subst hev; rfl

theorem check_errors (env : Env) (p : CheckSyntaxPlugin) (filepath : String)
    (H : BuilderTagsFile env) :
    ∀ e ∈ (p.check env filepath).1.errors, e ∈ p.errors ∨ e.filepath = filepath := by
  have hH := htmlPart_errors env p filepath H
  unfold CheckSyntaxPlugin.check
  dsimp only
  rcases hjs : jsTest filepath with _ | _
  · simpa using hH
  · rcases hr : env.readFile filepath with _ | js
    · simpa using hH
    · intro e he
      simp only [if_true] at he
      rcases tryParse_errors_mem env _ filepath _ H e he with h | h
      · exact hH e h
      · exact Or.inr h

/-- The one-step unfolding of `runChecks` on a non-empty file list. -/
theorem runChecks_cons (env : Env) (p : CheckSyntaxPlugin) (g : String)
    (rest : List String) :
    runChecks env p (g :: rest) =
      ((runChecks env (p.check env g).1 rest).1,
        (p.check env g).2.1 && (runChecks env (p.check env g).1 rest).2.1,
        (p.check env g).2.2 ++
          (if (p.check env g).2.1 then [Event.checkResolved g] else []) ++
          (runChecks env (p.check env g).1 rest).2.2) := rfl

theorem runChecks_ecma (env : Env) : ∀ (files : List String) (p : CheckSyntaxPlugin),
    (runChecks env p files).1.ecmaVersion = p.ecmaVersion := by
  intro files
  induction files with
  | nil => intro p; rfl
  | cons g rest ih =>
    intro p
    rw [runChecks_cons]
    dsimp only
    rw [ih ((p.check env g).1), check_fst_ecma]

theorem runChecks_resolved (env : Env) : ∀ (files : List String) (p : CheckSyntaxPlugin),
    (runChecks env p files).2.1 = true →
    ∀ f ∈ files, Event.checkResolved f ∈ (runChecks env p files).2.2 := by
  intro files
  induction files with
  | nil =>
    intro p _ f hf
    simp at hf
  | cons g rest ih =>
    intro p hok f hf
    rw [runChecks_cons] at hok ⊢
    dsimp only at hok ⊢
    rw [Bool.and_eq_true] at hok
    rcases hok with ⟨h1, h2⟩
    rcases List.mem_cons.mp hf with rfl | hf2
    · simp [h1]
    · have hrec := ih ((p.check env g).1) h2 f hf2
      simp [h1, hrec]

theorem runChecks_events (env : Env) : ∀ (files : List String) (p : CheckSyntaxPlugin),
    ∀ ev ∈ (runChecks env p files).2.2, ∃ f, f ∈ files ∧ eventFile ev = some f := by
  intro files
  induction files with
  | nil =>
    intro p ev hev
    simp [runChecks] at hev
  | cons g rest ih =>
    intro p ev hev
    rw [runChecks_cons] at hev
    dsimp only at hev
    simp only [List.mem_append] at hev
    rcases hev with (hev | hev) | hev
    · exact ⟨g, List.mem_cons_self g rest, check_events env p g ev hev⟩
    · rcases hc : (p.check env g).2.1 with _ | _
      · rw [hc] at hev
        simp at hev
      · rw [hc] at hev
        simp at hev
        subst hev
        exact ⟨g, List.mem_cons_self g rest, rfl⟩
    · obtain ⟨f, hf, hef⟩ := ih ((p.check env g).1) ev hev
      exact ⟨f, List.mem_cons_of_mem g hf, hef⟩

theorem runChecks_errors (env : Env) (H : BuilderTagsFile env) :
    ∀ (files : List String) (p : CheckSyntaxPlugin),
      ∀ e ∈ (runChecks env p files).1.errors,
        e ∈ p.errors ∨ ∃ f, f ∈ files ∧ e.filepath = f := by
  intro files
  induction files with
  | nil =>
    intro p e he
    exact Or.inl he
  | cons g rest ih =>
    intro p e he
    rw [runChecks_cons] at he
    dsimp only at he
    rcases ih ((p.check env g).1) e he with h | ⟨f, hf, hef⟩
    · rcases check_errors env p g H e h with h2 | h2
      · exact Or.inl h2
      · exact Or.inr ⟨g, List.mem_cons_self g rest, h2⟩
    · exact Or.inr ⟨f, List.mem_cons_of_mem g hf, hef⟩

theorem mem_collectFiles (p : CheckSyntaxPlugin) (c : Compilation) :
    ∀ f ∈ collectFiles p c,
      (htmlTest f || jsTest f) = true ∧ checkIsExclude f p.excludeOutput = false ∧
      ∃ a, a ∈ c.assets ∧ a.source = true ∧
        f = resolvePath (jsOrStr c.outputPath "dist") (stripQuery a.name) := by
  intro f hf
  unfold collectFiles at hf
  dsimp only at hf
  rw [List.mem_filter] at hf
  rcases hf with ⟨hmem, hpred⟩
  rw [List.mem_map] at hmem
  rcases hmem with ⟨a, hain, hfa⟩
  rw [List.mem_filter] at hain
  rcases hain with ⟨ha, hsrc⟩
  rcases hex : checkIsExclude (resolvePath (jsOrStr c.outputPath "dist") (stripQuery a.name))
      p.excludeOutput with _ | _
  · simp only [hex, Bool.not_false, if_pos] at hfa
    subst hfa
    exact ⟨hpred, hex, a, ha, hsrc, rfl⟩
  · simp only [hex, Bool.not_true, Bool.false_eq_true, if_false] at hfa
    subst hfa
    exact absurd hpred (by decide)

theorem afterEmit_ok (env : Env) (p : CheckSyntaxPlugin) (c : Compilation)
    (h : (runChecks env p (collectFiles p c)).2.1 = true) :
    p.afterEmit env c =
      { plugin := (runChecks env p (collectFiles p c)).1
        reported := some (runChecks env p (collectFiles p c)).1.errors
        trace := (runChecks env p (collectFiles p c)).2.2 ++
          [Event.reportStart (runChecks env p (collectFiles p c)).1.errors
            (runChecks env p (collectFiles p c)).1.ecmaVersion] } := by
  unfold CheckSyntaxPlugin.afterEmit
  dsimp only
  rw [h]
  simp

theorem afterEmit_rejected (env : Env) (p : CheckSyntaxPlugin) (c : Compilation)
    (h : (runChecks env p (collectFiles p c)).2.1 = false) :
    p.afterEmit env c =
      { plugin := (runChecks env p (collectFiles p c)).1
        reported := none
        trace := (runChecks env p (collectFiles p c)).2.2 } := by
  unfold CheckSyntaxPlugin.afterEmit
  dsimp only
  rw [h]
  simp

theorem afterEmit_plugin (env : Env) (p : CheckSyntaxPlugin) (c : Compilation) :
    (p.afterEmit env c).plugin = (runChecks env p (collectFiles p c)).1 := by
  rcases hok : (runChecks env p (collectFiles p c)).2.1 with _ | _
  · rw [afterEmit_rejected env p c hok]
  · rw [afterEmit_ok env p c hok]

/-- Every event of the joined checks concerns a collected, hence
not-`excludeOutput`-matched, file. -/
theorem runChecks_trace_not_excluded (env : Env) (p : CheckSyntaxPlugin)
    (c : Compilation) (f : String) (hex : checkIsExclude f p.excludeOutput = true) :
    ∀ ev ∈ (runChecks env p (collectFiles p c)).2.2, eventFile ev ≠ some f := by
  intro ev hev hcontr
  obtain ⟨g, hg, hef⟩ := runChecks_events env (collectFiles p c) p ev hev
  obtain ⟨_, hgex, _⟩ := mem_collectFiles p c g hg
  rw [hcontr] at hef
  have hgf : f = g := (Option.some.injEq f g).mp hef
  rw [← hgf] at hgex
  rw [hex] at hgex
  cases hgex

/-- A target list resolving to ECMAScript 5 in the sample environments. -/
def optsAccum : CheckSyntaxOptions :=
  { targets := ["ie 11"]
    exclude := none
    excludeOutput := none
    rootPath := "/proj"
    ecmaVersion := none }

/-- Environment whose parser rejects every input (a bundle using syntax newer
than the resolved version), with the spec-modelled diagnostic builder. -/
def envAccum : Env :=
  { readFile := fun _ => some "const x = a?.b"
    generateHtmlScripts := fun _ => []
    acornParse := fun _ _ => some { message := "Unexpected token", pos := 12 }
    generateError := specGenerateError
    browserslistToESVersion := fun _ => 5 }

/-- One emitted JavaScript asset under `/dist`. -/
def compAccum : Compilation :=
  { outputPath := some "/dist", assets := [{ name := "main.js", source := true }] }

/-- The diagnostic `envAccum` produces for `/dist/main.js`. -/
def errAccum : ECMASyntaxError :=
  { filepath := "/dist/main.js", message := "Unexpected token" }

/-- C1: the spec requires the instance's `errors` list to be reset at the
start of each post-emit run; the code never resets it, so diagnostics
accumulate across runs of the same instance.  At the failing input (two
successive runs over one always-failing asset) the first run reports one
diagnostic and the second run reports two, repeating the first run's
diagnostic. -/
theorem C1_errors_accumulate_across_runs :
    ((CheckSyntaxPlugin.construct envAccum optsAccum).afterEmit envAccum
        compAccum).reported = some [errAccum] ∧
    ((((CheckSyntaxPlugin.construct envAccum optsAccum).afterEmit envAccum
        compAccum).plugin).afterEmit envAccum compAccum).reported =
      some [errAccum, errAccum] := by
  constructor
  · decide
  · decide

/-- Environment where reading `/dist/broken.js` rejects while every other
file reads fine but fails to parse. -/
def envIo : Env :=
  { readFile := fun fp => if fp == "/dist/broken.js" then none else some "let 1 = 2"
    generateHtmlScripts := fun _ => []
    acornParse := fun code _ =>
      if code == "let 1 = 2" then some { message := "Unexpected token", pos := 4 } else none
    generateError := specGenerateError
    browserslistToESVersion := fun _ => 5 }

/-- Two emitted JavaScript assets, one of them unreadable. -/
def compIo : Compilation :=
  { outputPath := some "/dist"
    assets := [{ name := "broken.js", source := true }, { name := "ok.js", source := true }] }

/-- C2: the spec says a failed file read is non-fatal per file (skip that
file, keep checking the rest, report).  In the code the `readFile` rejection
is not caught, so the joined `Promise.all` rejects and the whole post-emit
hook aborts before `printErrors`: with an unreadable `/dist/broken.js` next
to `/dist/ok.js` whose parse fails, the run reports nothing at all, even
though the diagnostic for `/dist/ok.js` was found. -/
theorem C2_read_failure_aborts_run :
    ((CheckSyntaxPlugin.construct envIo optsAccum).afterEmit envIo compIo).reported = none ∧
    ((CheckSyntaxPlugin.construct envIo optsAccum).afterEmit envIo compIo).plugin.errors =
      [{ filepath := "/dist/ok.js", message := "Unexpected token" }] := by
  constructor
  · decide
  · decide

/-- Environment whose parser accepts everything; used to show that an
exclude-matched JavaScript file is still parsed. -/
def envEx : Env :=
  { readFile := fun _ => some "var x"
    generateHtmlScripts := fun _ => []
    acornParse := fun _ _ => none
    generateError := specGenerateError
    browserslistToESVersion := fun _ => 5 }

/-- A plugin instance whose `exclude` rule matches `/dist/a.js`. -/
def pEx : CheckSyntaxPlugin :=
  CheckSyntaxPlugin.construct envEx
    { targets := ["ie 11"]
      exclude := some (CheckSyntaxExclude.single (fun s => s == "/dist/a.js"))
      excludeOutput := none
      rootPath := "/proj"
      ecmaVersion := none }

/-- The single asset `/dist/a.js`. -/
def compEx : Compilation :=
  { outputPath := some "/dist", assets := [{ name := "a.js", source := true }] }

/-- C3 counterexample: `/dist/a.js` is matched by the `exclude` rule, yet the
post-emit run still parses its content — the JavaScript branch of `check`
never consults `exclude` before parsing, so the claim "no parse of its
content is attempted" is false for JavaScript files. -/
theorem C3_counterexample_excluded_js_still_parsed :
    checkIsExclude "/dist/a.js" pEx.exclude = true ∧
    Event.parseAttempt "/dist/a.js" "var x" ∈ (pEx.afterEmit envEx compEx).trace := by
  constructor
  · decide
  · decide

/-- C3 (amended): a file matched by `exclude` that is not a JavaScript file
has its check fully suppressed (nothing parsed, no events, instance
untouched); with the spec's diagnostic builder an exclude-matched file
contributes no diagnostics from any branch; but for a JavaScript file the
`exclude` rule does not prevent parsing — its content is still parsed and the
exclusion only suppresses the resulting diagnostics. -/
theorem C3_exclude_suppresses_html_not_js_parse (env : Env) (p : CheckSyntaxPlugin)
    (filepath : String) (hex : checkIsExclude filepath p.exclude = true) :
    (jsTest filepath = false → p.check env filepath = (p, true, [])) ∧
    (env.generateError = specGenerateError →
      (p.check env filepath).1.errors = p.errors) ∧
    (jsTest filepath = true → ∀ code, env.readFile filepath = some code →
      Event.parseAttempt filepath code ∈ (p.check env filepath).2.2) := by
  refine ⟨?_, ?_, ?_⟩
  · intro hjs
    unfold CheckSyntaxPlugin.check
    dsimp only
    rw [htmlPart_excluded env p filepath hex, hjs]
    simp
  · intro hg
    rcases hjs : jsTest filepath with _ | _
    · unfold CheckSyntaxPlugin.check
      dsimp only
      rw [htmlPart_excluded env p filepath hex, hjs]
      simp
    · rcases hr : env.readFile filepath with _ | code
      · unfold CheckSyntaxPlugin.check
        dsimp only
        rw [htmlPart_excluded env p filepath hex, hjs, hr]
        simp
      · unfold CheckSyntaxPlugin.check
        dsimp only
        rw [htmlPart_excluded env p filepath hex, hjs, hr]
        simp [tryParse_excluded_spec env p filepath code hg hex]
  · intro hjs code hr
    unfold CheckSyntaxPlugin.check
    dsimp only
    rw [htmlPart_excluded env p filepath hex, hjs, hr]
    simp [tryParse_eq]

/-- A plugin instance whose `exclude` rule matches the HTML file `/o/a.html`. -/
def pExH : CheckSyntaxPlugin :=
  CheckSyntaxPlugin.construct envEx
    { targets := ["ie 11"]
      exclude := some (CheckSyntaxExclude.single (fun s => s == "/o/a.html"))
      excludeOutput := none
      rootPath := "/proj"
      ecmaVersion := none }

theorem C3_exclude_suppresses_html_not_js_parse_witness :
    (pExH.check envEx "/o/a.html" = (pExH, true, [])) ∧
    ((pEx.check envEx "/dist/a.js").1.errors = pEx.errors) ∧
    (Event.parseAttempt "/dist/a.js" "var x" ∈ (pEx.check envEx "/dist/a.js").2.2) :=
  ⟨(C3_exclude_suppresses_html_not_js_parse envEx pExH "/o/a.html" (by decide)).1 (by decide),
   (C3_exclude_suppresses_html_not_js_parse envEx pEx "/dist/a.js" (by decide)).2.1 rfl,
   (C3_exclude_suppresses_html_not_js_parse envEx pEx "/dist/a.js" (by decide)).2.2
     (by decide) "var x" rfl⟩

/-- C4: Collecting strips any query suffix from each emitted (truthy-source)
asset name and resolves it under the output path, and a path is checked only
if it is not matched by `excludeOutput` and matches the HTML/JavaScript
filter; a path matched by `excludeOutput` is never read or parsed (no event
of the run concerns it) and, provided the diagnostic builder tags each
diagnostic with the file it was built for, it contributes no diagnostics. -/
theorem C4_excludeOutput_suppresses_file (env : Env) (p : CheckSyntaxPlugin)
    (c : Compilation) (f : String) (hex : checkIsExclude f p.excludeOutput = true) :
    (∀ g ∈ collectFiles p c,
      (htmlTest g || jsTest g) = true ∧ checkIsExclude g p.excludeOutput = false ∧
      ∃ a, a ∈ c.assets ∧ a.source = true ∧
        g = resolvePath (jsOrStr c.outputPath "dist") (stripQuery a.name)) ∧
    (∀ ev ∈ (p.afterEmit env c).trace, eventFile ev ≠ some f) ∧
    (BuilderTagsFile env →
      ∀ e ∈ (p.afterEmit env c).plugin.errors, e ∈ p.errors ∨ e.filepath ≠ f) := by
  refine ⟨mem_collectFiles p c, ?_, ?_⟩
  · intro ev hev
    rcases hok : (runChecks env p (collectFiles p c)).2.1 with _ | _
    · rw [afterEmit_rejected env p c hok] at hev
      exact runChecks_trace_not_excluded env p c f hex ev hev
    · rw [afterEmit_ok env p c hok] at hev
      dsimp only at hev
      rw [List.mem_append] at hev
      rcases hev with hev | hev
      · exact runChecks_trace_not_excluded env p c f hex ev hev
      · rw [List.mem_singleton] at hev
        subst hev
        intro hcontr
        cases hcontr
  · intro H e he
    rw [afterEmit_plugin env p c] at he
    rcases runChecks_errors env H (collectFiles p c) p e he with h | ⟨g, hg, hef⟩
    · exact Or.inl h
    · right
      intro hEq
      obtain ⟨_, hgex, _⟩ := mem_collectFiles p c g hg
      rw [hef.symm.trans hEq] at hgex
      rw [hex] at hgex
      cases hgex

/-- Environment whose parser rejects everything, for the `excludeOutput`
scenario. -/
def envOut : Env :=
  { readFile := fun _ => some "let 1 = 2"
    generateHtmlScripts := fun _ => []
    acornParse := fun _ _ => some { message := "Unexpected token", pos := 0 }
    generateError := specGenerateError
    browserslistToESVersion := fun _ => 5 }

/-- A plugin instance whose `excludeOutput` rule matches `/dist/skip.js`. -/
def pOut : CheckSyntaxPlugin :=
  CheckSyntaxPlugin.construct envOut
    { targets := ["ie 11"]
      exclude := none
      excludeOutput := some (CheckSyntaxExclude.single (fun s => s == "/dist/skip.js"))
      rootPath := "/proj"
      ecmaVersion := none }

/-- Assets where `skip.js` (with a syntax error) is matched by
`excludeOutput` and `keep.js` is not. -/
def compOut : Compilation :=
  { outputPath := some "/dist"
    assets := [{ name := "skip.js", source := true }, { name := "keep.js", source := true }] }

theorem C4_excludeOutput_suppresses_file_witness :
    checkIsExclude "/dist/skip.js" pOut.excludeOutput = true ∧
    (∀ ev ∈ (pOut.afterEmit envOut compOut).trace, eventFile ev ≠ some "/dist/skip.js") ∧
    (∀ e ∈ (pOut.afterEmit envOut compOut).plugin.errors,
      e ∈ pOut.errors ∨ e.filepath ≠ "/dist/skip.js") :=
  ⟨by decide,
   (C4_excludeOutput_suppresses_file envOut pOut compOut "/dist/skip.js" (by decide)).2.1,
   (C4_excludeOutput_suppresses_file envOut pOut compOut "/dist/skip.js" (by decide)).2.2
     (specGenerateError_tags envOut rfl)⟩

/-- C5: whenever a run reports, the `printErrors` event is the last event of
the run, strictly after the resolution of every dispatched per-file check, no
earlier report event exists, and the reported list is exactly the full
per-instance error list at join time — a run never reports a partial
diagnostic set. -/
theorem C5_report_only_after_all_checks (env : Env) (p : CheckSyntaxPlugin)
    (c : Compilation) (es : List ECMASyntaxError)
    (h : (p.afterEmit env c).reported = some es) :
    ∃ tr, (p.afterEmit env c).trace =
        tr ++ [Event.reportStart es (p.afterEmit env c).plugin.ecmaVersion] ∧
      (∀ f ∈ collectFiles p c, Event.checkResolved f ∈ tr) ∧
      (∀ l v, Event.reportStart l v ∉ tr) ∧
      es = (p.afterEmit env c).plugin.errors := by
  rcases hok : (runChecks env p (collectFiles p c)).2.1 with _ | _
  · rw [afterEmit_rejected env p c hok] at h
    cases h
  · rw [afterEmit_ok env p c hok] at h
    dsimp only at h
    have hes : es = (runChecks env p (collectFiles p c)).1.errors :=
      ((Option.some.injEq _ es).mp h).symm
    subst hes
    refine ⟨(runChecks env p (collectFiles p c)).2.2, ?_, ?_, ?_, ?_⟩
    · rw [afterEmit_ok env p c hok]
    · exact runChecks_resolved env (collectFiles p c) p hok
    · intro l v hmem
      obtain ⟨g, _, hef⟩ := runChecks_events env (collectFiles p c) p _ hmem
      cases hef
    · rw [afterEmit_ok env p c hok]

theorem C5_report_only_after_all_checks_witness :
    ∃ tr, (((CheckSyntaxPlugin.construct envAccum optsAccum).afterEmit envAccum
          compAccum)).trace =
        tr ++ [Event.reportStart [errAccum]
          (((CheckSyntaxPlugin.construct envAccum optsAccum).afterEmit envAccum
            compAccum)).plugin.ecmaVersion] ∧
      (∀ f ∈ collectFiles (CheckSyntaxPlugin.construct envAccum optsAccum) compAccum,
        Event.checkResolved f ∈ tr) ∧
      (∀ l v, Event.reportStart l v ∉ tr) ∧
      [errAccum] = (((CheckSyntaxPlugin.construct envAccum optsAccum).afterEmit envAccum
        compAccum)).plugin.errors :=
  C5_report_only_after_all_checks envAccum (CheckSyntaxPlugin.construct envAccum optsAccum)
    compAccum [errAccum] (by decide)

/-- C6: when the caller supplies an explicit `ecmaVersion` that is a valid
ECMAScript edition, the constructor resolves exactly that value — for every
environment, so the `targets` derivation is not consulted; only when
`ecmaVersion` is absent is the version derived via `browserslistToESVersion`
from the targets. -/
theorem C6_explicit_ecmaVersion_wins (env : Env) (options : CheckSyntaxOptions) :
    (∀ v, options.ecmaVersion = some v → isEcmaEdition v →
      (CheckSyntaxPlugin.construct env options).ecmaVersion = v) ∧
    (options.ecmaVersion = none →
      (CheckSyntaxPlugin.construct env options).ecmaVersion =
        env.browserslistToESVersion options.targets) := by
  constructor
  · intro v hv hval
    unfold CheckSyntaxPlugin.construct
    dsimp only
    rw [hv]
    unfold jsOrNat
    have hnz : v ≠ 0 := by
      unfold isEcmaEdition at hval
      omega
    simp [hnz]
  · intro hnone
    unfold CheckSyntaxPlugin.construct
    dsimp only
    rw [hnone]
    rfl

theorem C6_explicit_ecmaVersion_wins_witness :
    (CheckSyntaxPlugin.construct envAccum
      { optsAccum with ecmaVersion := some 2015 }).ecmaVersion = 2015 ∧
    (CheckSyntaxPlugin.construct envAccum optsAccum).ecmaVersion =
      envAccum.browserslistToESVersion optsAccum.targets :=
  ⟨(C6_explicit_ecmaVersion_wins envAccum
      { optsAccum with ecmaVersion := some 2015 }).1 2015 rfl (by decide),
   (C6_explicit_ecmaVersion_wins envAccum optsAccum).2 rfl⟩

/-- C7: `tryParse` is a total operation on the instance (any parser exception
is caught): a successful parse leaves the instance intact; on a parse
exception the diagnostic builder's non-null result is appended to `errors`
— exactly one diagnostic — and a null result leaves the instance intact. -/
theorem C7_tryParse_catches_and_filters (env : Env) (p : CheckSyntaxPlugin)
    (filepath code : String) :
    (env.acornParse code p.ecmaVersion = none →
      (p.tryParse env filepath code).1 = p) ∧
    (∀ err e, env.acornParse code p.ecmaVersion = some err →
      env.generateError err code filepath p.exclude p.rootPath = some e →
      (p.tryParse env filepath code).1.errors = p.errors ++ [e]) ∧
    (∀ err, env.acornParse code p.ecmaVersion = some err →
      env.generateError err code filepath p.exclude p.rootPath = none →
      (p.tryParse env filepath code).1 = p) := by
  refine ⟨?_, ?_, ?_⟩
  · intro h
    rw [tryParse_eq, tryParseNew_none env p filepath code h]
    simp
  · intro err e h1 h2
    rw [tryParse_eq, tryParseNew_some env p filepath code err h1, h2]
    simp
  · intro err h1 h2
    rw [tryParse_eq, tryParseNew_some env p filepath code err h1, h2]
    simp

/-- Environment with an always-succeeding parser. -/
def envPass : Env :=
  { readFile := fun _ => some ""
    generateHtmlScripts := fun _ => []
    acornParse := fun _ _ => none
    generateError := specGenerateError
    browserslistToESVersion := fun _ => 5 }

/-- Environment with an always-failing parser and the spec's builder. -/
def envFail : Env :=
  { envPass with acornParse := fun _ _ => some { message := "boom", pos := 0 } }

/-- Environment with an always-failing parser whose builder suppresses
every diagnostic. -/
def envFailNone : Env :=
  { envFail with generateError := fun _ _ _ _ _ => none }

/-- A plain plugin instance with no exclusions. -/
def pPlain : CheckSyntaxPlugin := CheckSyntaxPlugin.construct envPass optsAccum

theorem C7_tryParse_catches_and_filters_witness :
    ((pPlain.tryParse envPass "/dist/a.js" "var x").1 = pPlain) ∧
    ((pPlain.tryParse envFail "/dist/a.js" "var x").1.errors =
      pPlain.errors ++ [{ filepath := "/dist/a.js", message := "boom" }]) ∧
    ((pPlain.tryParse envFailNone "/dist/a.js" "var x").1 = pPlain) :=
  ⟨(C7_tryParse_catches_and_filters envPass pPlain "/dist/a.js" "var x").1 rfl,
   (C7_tryParse_catches_and_filters envFail pPlain "/dist/a.js" "var x").2.1
     { message := "boom", pos := 0 } { filepath := "/dist/a.js", message := "boom" }
     rfl (by decide),
   (C7_tryParse_catches_and_filters envFailNone pPlain "/dist/a.js" "var x").2.2
     { message := "boom", pos := 0 } rfl rfl⟩

/-- C8: an emitted asset with a falsy `source` is dropped before path
resolution — the whole post-emit run (files collected, events, diagnostics,
report) is identical to the run over the asset list with falsy-source assets
removed. -/
theorem C8_falsy_source_assets_dropped (env : Env) (p : CheckSyntaxPlugin)
    (c : Compilation) :
    p.afterEmit env c =
      p.afterEmit env { c with assets := c.assets.filter (fun a => a.source) } := by
  have hfiles : collectFiles p { c with assets := c.assets.filter (fun a => a.source) } =
      collectFiles p c := by
    unfold collectFiles
    dsimp only
    rw [List.filter_filter]
    simp
  unfold CheckSyntaxPlugin.afterEmit
  dsimp only
  rw [hfiles]

/-- C9: when the compilation carries no output path, resolution behaves
exactly as if the output path were the literal directory `dist`: the whole
run coincides with the run over the same compilation with output path
`dist`. -/
theorem C9_missing_outputPath_defaults_to_dist (env : Env) (p : CheckSyntaxPlugin)
    (c : Compilation) (h : c.outputPath = none) :
    p.afterEmit env c = p.afterEmit env { c with outputPath := some "dist" } := by
  obtain ⟨op, assets⟩ := c
  dsimp only at h
  subst h
  have hfiles : collectFiles p { outputPath := none, assets := assets } =
      collectFiles p { outputPath := some "dist", assets := assets } := by
    unfold collectFiles
    dsimp only
    have h2 : jsOrStr (some "dist") "dist" = jsOrStr none "dist" := by decide
    rw [h2]
  unfold CheckSyntaxPlugin.afterEmit
  dsimp only
  rw [hfiles]

/-- The single emitted asset of a compilation with no output path. -/
def compNoOut : Compilation :=
  { outputPath := none, assets := [{ name := "m.js", source := true }] }

theorem C9_missing_outputPath_defaults_to_dist_witness :
    pPlain.afterEmit envPass compNoOut =
      pPlain.afterEmit envPass { compNoOut with outputPath := some "dist" } :=
  C9_missing_outputPath_defaults_to_dist envPass pPlain compNoOut rfl

/-- C10: the resolved grammar version is fixed at construction and no
operation mutates it — `tryParse` and `check` preserve it, and an arbitrary
sequence of post-emit runs by the same instance leaves it unchanged. -/
theorem C10_ecmaVersion_constant_across_runs (env : Env) (p : CheckSyntaxPlugin) :
    (∀ filepath code, (p.tryParse env filepath code).1.ecmaVersion = p.ecmaVersion) ∧
    (∀ filepath, (p.check env filepath).1.ecmaVersion = p.ecmaVersion) ∧
    (∀ cs : List Compilation,
      (cs.foldl (fun q c => (q.afterEmit env c).plugin) p).ecmaVersion = p.ecmaVersion) := by
  refine ⟨?_, ?_, ?_⟩
  · intro filepath code
    rw [tryParse_eq]
  · intro filepath
    exact check_fst_ecma env p filepath
  · intro cs
    induction cs generalizing p with
    | nil => rfl
    | cons c rest ih =>
      rw [List.foldl_cons, ih ((p.afterEmit env c).plugin), afterEmit_plugin env p c,
        runChecks_ecma env (collectFiles p c) p]
